import Mathlib

/-!
Verification of the email QC pipeline `src/email_qc_bot.py`.

The program is modelled as pure functions over an explicit environment:
the existence and parsed contents of `events.csv`, the listing of the
`emails/` directory, the remote text-generation service as an oracle
from the user payload to a textual reply, and the optional webhook
configuration.  File writes, terminal prints and webhook posts are
collected in effect lists.  `json.loads` is modelled by an executable
recursive-descent parser into a JSON value type (numeric literals are
restricted to integers; fractional and exponent forms are outside the
model and treated as parse failures).
-/

set_option autoImplicit false

namespace EmailQC

/-- JSON values, as produced by `json.loads`.  Objects keep their fields
as an association list with unique keys in insertion order, matching the
Python `dict` that `json.loads` builds (later duplicate keys overwrite
in place). -/
inductive Json where
  | null
  | bool (b : Bool)
  | num (n : Int)
  | str (s : String)
  | arr (items : List Json)
  | obj (fields : List (String × Json))

/-- Python `dict` lookup on an association list built by successive
insertion where a later binding for the same key overwrites in place:
the first binding found left-to-right is the current one. -/
def dictGet {α : Type} (l : List (String × α)) (k : String) : Option α :=
  match l with
  | [] => none
  | (k', v) :: rest => if k' = k then some v else dictGet rest k

/-- Python `dict` insertion: overwrite in place if the key is present,
append otherwise (insertion-order semantics of `dict`). -/
def dictInsert {α : Type} (l : List (String × α)) (k : String) (v : α) :
    List (String × α) :=
  match l with
  | [] => [(k, v)]
  | (k', v') :: rest =>
    if k' = k then (k, v) :: rest else (k', v') :: dictInsert rest k v

/-- Keys of a JSON object value (in insertion order), `[]` on non-objects. -/
def jsonKeys (j : Json) : List String :=
  match j with
  | .obj fields => fields.map Prod.fst
  | _ => []

/-- Lookup of a key inside a JSON object value, used to state properties
of replies; `none` when the key is absent or the value is not an object.
This is not the model of the pipeline's `report.get` calls: those are
only reached on dict replies, and `stepDraft` raises `AttributeError`
on non-dict replies before any lookup. -/
def jsonGet (j : Json) (k : String) : Option Json :=
  match j with
  | .obj fields => dictGet fields k
  | _ => none

/-- Whitespace skipping for the JSON reader (space, tab, CR, LF as in
RFC 8259 / `json.loads`). -/
def skipWs : List Char → List Char
  | [] => []
  | c :: cs =>
    if c = ' ' ∨ c = '\t' ∨ c = '\n' ∨ c = '\r' then skipWs cs else c :: cs

/-- Decode one JSON string escape character (the basic escapes of
`json.loads`; `\u` escapes are outside the model). -/
def escChar (c : Char) : Option Char :=
  if c = '"' then some '"'
  else if c = '\\' then some '\\'
  else if c = '/' then some '/'
  else if c = 'b' then some (Char.ofNat 8)
  else if c = 'f' then some (Char.ofNat 12)
  else if c = 'n' then some '\n'
  else if c = 'r' then some '\r'
  else if c = 't' then some '\t'
  else none

/-- Read the body of a JSON string after the opening quote, returning the
decoded characters and the remaining input after the closing quote. -/
def readStr : List Char → Option (List Char × List Char)
  | [] => none
  | c :: cs =>
    if c = '"' then some ([], cs)
    else if c = '\\' then
      match cs with
      | [] => none
      | e :: cs' =>
        match escChar e with
        | none => none
        | some d =>
          match readStr cs' with
          | none => none
          | some (a, r) => some (d :: a, r)
    else if c.toNat < 32 then none
    else
      match readStr cs with
      | none => none
      | some (a, r) => some (c :: a, r)

/-- Read a run of decimal digits as a natural number; fails when the
input does not start with a digit, or on a leading zero followed by
more digits, which the JSON grammar of `json.loads` rejects. -/
def readDigits (cs : List Char) : Option (Nat × List Char) :=
  let p := cs.span (fun c => c.isDigit)
  match p.1 with
  | [] => none
  | ds =>
    if 1 < ds.length ∧ ds.headD '0' = '0' then none
    else some (ds.foldl (fun n c => n * 10 + (c.toNat - 48)) 0, p.2)

/-- After the digits of a numeric literal, a `.`, `e` or `E` would start
a fractional or exponent part, which is outside the model. -/
def numCont (cs : List Char) : Bool :=
  match cs with
  | [] => false
  | c :: _ => c = '.' ∨ c = 'e' ∨ c = 'E'

mutual

/-- Fuel-indexed recursive-descent reader for one JSON value, modelling
`json.loads` (integer numerals only). -/
def readVal : Nat → List Char → Option (Json × List Char)
  | 0, _ => none
  | fuel + 1, cs =>
    match skipWs cs with
    | 'n' :: 'u' :: 'l' :: 'l' :: rest => some (.null, rest)
    | 't' :: 'r' :: 'u' :: 'e' :: rest => some (.bool true, rest)
    | 'f' :: 'a' :: 'l' :: 's' :: 'e' :: rest => some (.bool false, rest)
    | '"' :: rest =>
      match readStr rest with
      | none => none
      | some (a, r) => some (.str (String.mk a), r)
    | '[' :: rest =>
      (match skipWs rest with
       | ']' :: r => some (.arr [], r)
       | cs' =>
         match readVal fuel cs' with
         | none => none
         | some (j, r) => readArrRest fuel [j] r)
    | '{' :: rest =>
      (match skipWs rest with
       | '}' :: r => some (.obj [], r)
       | cs' => readObjRest fuel [] cs')
    | '-' :: rest =>
      (match readDigits rest with
       | none => none
       | some (n, r) => if numCont r then none else some (.num (-(n : Int)), r))
    | c :: rest =>
      if c.isDigit then
        match readDigits (c :: rest) with
        | none => none
        | some (n, r) => if numCont r then none else some (.num (n : Int), r)
      else none
    | [] => none

/-- Read the remainder of a JSON array after at least one element. -/
def readArrRest : Nat → List Json → List Char → Option (Json × List Char)
  | 0, _, _ => none
  | fuel + 1, acc, cs =>
    match skipWs cs with
    | ']' :: r => some (.arr acc.reverse, r)
    | ',' :: r =>
      (match readVal fuel r with
       | none => none
       | some (j, r') => readArrRest fuel (j :: acc) r')
    | _ => none

/-- Read the members of a JSON object (the input points at the first
key), accumulating a Python-`dict`-like association list. -/
def readObjRest : Nat → List (String × Json) → List Char →
    Option (Json × List Char)
  | 0, _, _ => none
  | fuel + 1, acc, cs =>
    match skipWs cs with
    | '"' :: rest =>
      (match readStr rest with
       | none => none
       | some (k, r) =>
         match skipWs r with
         | ':' :: r' =>
           (match readVal fuel r' with
            | none => none
            | some (v, r'') =>
              let acc' := dictInsert acc (String.mk k) v
              match skipWs r'' with
              | ',' :: r3 => readObjRest fuel acc' r3
              | '}' :: r3 => some (.obj acc', r3)
              | _ => none)
         | _ => none)
    | _ => none

end

/-- Model of `json.loads`: the whole input must be one JSON value
followed only by whitespace. -/
def jsonParse (s : String) : Option Json :=
  match readVal (2 * s.length + 8) s.toList with
  | none => none
  | some (j, rest) => if skipWs rest = [] then some j else none

/-- Index of the last occurrence of `c`, as Python `str.rfind`. -/
def lastIdxOf (c : Char) : List Char → Option Nat
  | [] => none
  | x :: rest =>
    match lastIdxOf c rest with
    | some i => some (i + 1)
    | none => if x = c then some 0 else none

/-- Python `pathlib.Path(...).stem` for a plain filename: the name with
its final suffix removed, where the suffix starts at the last dot
provided that dot is neither the first nor the last character. -/
def pyStem (name : String) : String :=
  let cs := name.toList
  match lastIdxOf '.' cs with
  | none => name
  | some i =>
    if 0 < i ∧ i < cs.length - 1 then String.mk (cs.take i) else name

/-- Python `s.split(sep, 1)`: the part before the first occurrence of
`sep`, and the rest after it when `sep` occurs. -/
def splitFirst (sep : Char) : List Char → List Char × Option (List Char)
  | [] => ([], none)
  | c :: cs =>
    if c = sep then ([], some cs)
    else
      let p := splitFirst sep cs
      (c :: p.1, p.2)

/-- `extract_event_id` (line 65): `filename.stem.split("_", 1)[0]`. -/
def extract_event_id (filename : String) : String :=
  String.mk (splitFirst '_' (pyStem filename).toList).1

/-- One row of `events.csv` as `row.to_dict()`: column name to string
value (`dtype=str` with `fillna("")`). -/
abbrev Row : Type := List (String × String)

/-- The `event_id` column of a row, used as the dictionary key in
`load_events`. -/
def rowEventId (r : Row) : String :=
  (dictGet r "event_id").getD ""

/-- One file of the `emails/` directory: its filename and its text
content (`f.read_text()`). -/
structure DraftFile where
  name : String
  content : String

/-- Environment of one run: filesystem state, the remote text-generation
service as a deterministic oracle from the user payload to the textual
reply (the model name, system prompt and temperature 0 are fixed
constants of `call_llm`), the optional `SLACK_WEBHOOK_URL`, and the
formatted `datetime.utcnow()` timestamp. -/
structure Env where
  eventsCsvExists : Bool
  csvRows : List Row
  emailDirExists : Bool
  mdFiles : List DraftFile
  txtFiles : List DraftFile
  llm : Json → String
  slackUrl : Option String
  now : String

/-- Observable effects of a run: report files written to `reports/`
(filename and JSON content), terminal lines printed, and webhook POST
bodies sent. -/
structure Effects where
  reports : List (String × Json)
  prints : List String
  slackPosts : List Json

def emptyEffects : Effects := ⟨[], [], []⟩

/-- Uncaught Python exceptions that terminate the run. -/
inductive Err where
  | missingEventsCsv
  | missingEmailDir
  | jsonDecodeError
  | typeError
  | attributeError
deriving DecidableEq

/-- `load_events` (lines 52-56): raises when `events.csv` is absent,
otherwise builds the dict comprehension keyed by `event_id` (later rows
with the same key overwrite earlier ones, matched by `dictGet`). -/
def load_events (env : Env) : Except Err (List (String × Row)) :=
  if env.eventsCsvExists then
    .ok ((env.csvRows.map (fun r => (rowEventId r, r))).foldl
      (fun d p => dictInsert d p.1 p.2) [])
  else .error .missingEventsCsv

/-- `gather_emails` (lines 59-62): raises when `emails/` is absent,
otherwise the `*.md` matches followed by the `*.txt` matches. -/
def gather_emails (env : Env) : Except Err (List DraftFile) :=
  if env.emailDirExists then .ok (env.mdFiles ++ env.txtFiles)
  else .error .missingEmailDir

/-- `STYLE_RULES` (lines 36-40). -/
def STYLE_RULES : List (String × Int) :=
  [("subject_max_chars", 55), ("preview_max_chars", 120),
   ("body_max_chars", 1800)]

/-- An event row embedded into the JSON user payload. -/
def rowToJson (r : Row) : Json :=
  .obj (r.map (fun p => (p.1, .str p.2)))

/-- The user payload of `call_llm` (lines 70-74): the dict that is
`json.dumps`-ed into the single user message. -/
def user_prompt (event_meta : Row) (email_text : String) : Json :=
  .obj [("event", rowToJson event_meta), ("email", .str email_text),
        ("style_rules", .obj (STYLE_RULES.map (fun p => (p.1, .num p.2))))]

/-- `call_llm` (lines 69-84): send the user payload to the service and
parse the reply with `json.loads`; `none` is the uncaught
`json.JSONDecodeError`. -/
def call_llm (llm : Json → String) (event_meta : Row) (email_text : String) :
    Option Json :=
  jsonParse (llm (user_prompt event_meta email_text))

/-- `termcolor.colored` with a named color: ANSI SGR wrapping. -/
def colored (s : String) (color : String) : String :=
  let code :=
    if color = "red" then "31"
    else if color = "green" then "32"
    else if color = "yellow" then "33"
    else "0"
  "\x1b[" ++ code ++ "m" ++ s ++ "\x1b[0m"

/-- `colour_light` (lines 87-92): dictionary `get` that colorizes the
three known traffic-light strings and returns any other value
unchanged. -/
def colour_light (light : Json) : Json :=
  match light with
  | .str "GREEN" => .str (colored "GREEN" "green")
  | .str "YELLOW" => .str (colored "YELLOW" "yellow")
  | .str "RED" => .str (colored "RED" "red")
  | v => v

mutual

/-- Python `repr` of a `json.loads` value (no escape handling; only
exercised on scalar values by the pipeline). -/
def reprPy : Json → String
  | .null => "None"
  | .bool true => "True"
  | .bool false => "False"
  | .num n => toString n
  | .str s => "\x27" ++ s ++ "\x27"
  | .arr xs => "[" ++ reprPyList xs ++ "]"
  | .obj fs => "\x7b" ++ reprPyFields fs ++ "\x7d"

def reprPyList : List Json → String
  | [] => ""
  | [x] => reprPy x
  | x :: y :: xs => reprPy x ++ ", " ++ reprPyList (y :: xs)

def reprPyFields : List (String × Json) → String
  | [] => ""
  | [(k, v)] => "\x27" ++ k ++ "\x27: " ++ reprPy v
  | (k, v) :: f :: fs =>
    "\x27" ++ k ++ "\x27: " ++ reprPy v ++ ", " ++ reprPyFields (f :: fs)

end

/-- Python `str()` of a `json.loads` value, as used by f-string
interpolation. -/
def formatPy : Json → String
  | .str s => s
  | v => reprPy v

/-- Python `len()` on a `json.loads` value: `none` is the `TypeError`
raised on values without a length. -/
def pyLenOpt : Json → Option Nat
  | .arr xs => some xs.length
  | .str s => some s.length
  | .obj fs => some fs.length
  | _ => none

/-- Whether a `json.loads` value is hashable in Python (dictionary `get`
raises `TypeError` on lists and dicts). -/
def hashableJson : Json → Bool
  | .arr _ => false
  | .obj _ => false
  | _ => true

/-- The `[SKIP]` notice printed for an unmatched draft (line 110). -/
def skipLine (name : String) (event_id : String) : String :=
  colored ("[SKIP] " ++ name ++ ": event_id \x27" ++ event_id ++
    "\x27 not in events.csv") "red"

/-- The per-draft CLI summary line (line 121). -/
def summaryLine (name : String) (tl : Json) (ne nw : Nat) : String :=
  name ++ ": " ++ formatPy (colour_light tl) ++ " – " ++ toString ne ++
    " errors, " ++ toString nw ++ " warnings"

/-- The report filename for a draft (line 116). -/
def reportName (name : String) : String :=
  pyStem name ++ "_report.json"

/-- One line of the Slack digest (line 126). -/
def digestLine (p : String × Json) : String :=
  "*" ++ p.1 ++ "* → " ++ formatPy p.2

/-- `send_slack` (lines 95-99): the POST body when a webhook is
configured, nothing otherwise. -/
def send_slack (slackUrl : Option String) (message : String) : List Json :=
  if slackUrl.isSome then [.obj [("text", .str message)]] else []

/-- Result of the per-draft loop: accumulated effects, the `overall`
list of `(filename, traffic_light)` pairs, and the uncaught exception
that stopped the loop, if any. -/
structure LoopOut where
  eff : Effects
  overall : List (String × Json)
  err : Option Err

/-- One iteration of the per-draft loop body of `main` (lines 107-122):
derive the identifier; skip with a printed notice when it is not in the
events dict; otherwise call the service and parse the reply (parse
failure raises `JSONDecodeError` with the effects accumulated so far)
and write the report file.  Then line 120's `report.get` raises
`AttributeError` when the parsed reply is not a dict; on a dict reply,
the summary line is printed and `overall` appended (an unhashable
traffic light or a length-less errors/warnings value raises `TypeError`)
— all three per-draft exceptions occur after the report write. -/
def stepDraft (events : List (String × Row)) (llm : Json → String)
    (f : DraftFile) (eff : Effects) (ov : List (String × Json)) :
    Effects × List (String × Json) × Option Err :=
  match dictGet events (extract_event_id f.name) with
  | none =>
    ({ eff with
       prints := eff.prints ++
         [skipLine f.name (extract_event_id f.name)] }, ov, none)
  | some meta =>
    match call_llm llm meta f.content with
    | none => (eff, ov, some .jsonDecodeError)
    | some report =>
      let eff1 := { eff with
        reports := eff.reports ++ [(reportName f.name, report)] }
      match report with
      | .obj fields =>
        let tl := (dictGet fields "traffic_light").getD (.str "?")
        if hashableJson tl then
          match pyLenOpt ((dictGet fields "errors").getD (.arr [])),
                pyLenOpt ((dictGet fields "warnings").getD (.arr [])) with
          | some ne, some nw =>
            ({ eff1 with
               prints := eff1.prints ++ [summaryLine f.name tl ne nw] },
             ov ++ [(f.name, tl)], none)
          | _, _ => (eff1, ov, some .typeError)
        else (eff1, ov, some .typeError)
      | _ => (eff1, ov, some .attributeError)

/-- The per-draft loop of `main` (lines 107-122): iterate `stepDraft`
over the gathered files, stopping at the first uncaught exception. -/
def processFiles (events : List (String × Row)) (llm : Json → String) :
    List DraftFile → Effects → List (String × Json) → LoopOut
  | [], eff, ov => ⟨eff, ov, none⟩
  | f :: rest, eff, ov =>
    match stepDraft events llm f eff ov with
    | (eff', ov', none) => processFiles events llm rest eff' ov'
    | (eff', ov', some e) => ⟨eff', ov', some e⟩

/-- `main` (lines 102-127): load the events, gather the drafts, run the
per-draft loop, then post the timestamped Slack digest when a webhook
is configured and the loop finished without an uncaught exception. -/
def runMain (env : Env) : Effects × Option Err :=
  match load_events env with
  | .error e => (emptyEffects, some e)
  | .ok events =>
    match gather_emails env with
    | .error e => (emptyEffects, some e)
    | .ok files =>
      let out := processFiles events env.llm files emptyEffects []
      match out.err with
      | some e => (out.eff, some e)
      | none =>
        if env.slackUrl.isSome then
          let msg := "QC Summary (" ++ env.now ++ "):\n" ++
            String.intercalate "\n" (out.overall.map digestLine)
          ({ out.eff with
             slackPosts := out.eff.slackPosts ++ send_slack env.slackUrl msg },
           none)
        else (out.eff, none)

/-- Identifier derivation as the specification words it (§4.2, §8): the
filename without extension truncated at the first underscore; the whole
stem when no underscore is present.  Compared against
`extract_event_id`, which embeds the source. -/
def specDerivedId (filename : String) : String :=
  let stem := pyStem filename
  if stem.toList.contains '_' then
    String.mk (stem.toList.takeWhile (fun c => c ≠ '_'))
  else stem

/-- Concrete event row used by the claim instances. -/
def rowEVT1 : Row := [("event_id", "EVT1"), ("title", "Launch")]

/-- A well-formed remote reply with exactly the three expected keys. -/
def replyThreeKeys : String :=
  "\x7b\"errors\": [], \"warnings\": [], \"traffic_light\": \"GREEN\"\x7d"

/-- The parse of `replyThreeKeys`. -/
def objGood : Json :=
  .obj [("errors", .arr []), ("warnings", .arr []),
        ("traffic_light", .str "GREEN")]

/-- A well-formed remote reply carrying the same three keys in a
different order. -/
def replyShuffled : String :=
  "\x7b\"traffic_light\": \"GREEN\", \"errors\": [], \"warnings\": []\x7d"

/-- The parse of `replyShuffled`. -/
def objShuffled : Json :=
  .obj [("traffic_light", .str "GREEN"), ("errors", .arr []),
        ("warnings", .arr [])]

/-- A remote reply whose traffic light is outside the known enum. -/
def replyPurple : String :=
  "\x7b\"errors\": [], \"warnings\": [\"w1\"], \"traffic_light\": \"PURPLE\"\x7d"

/-- The parse of `replyPurple`. -/
def objPurple : Json :=
  .obj [("errors", .arr []), ("warnings", .arr [.str "w1"]),
        ("traffic_light", .str "PURPLE")]

/-- A remote reply that is a JSON object with none of the three
expected keys. -/
def replyNoKeys : String := "\x7b\"note\": \"n\"\x7d"

/-- The parse of `replyNoKeys`. -/
def objNoKeys : Json := .obj [("note", .str "n")]

/-- Baseline concrete environment for the claim instances: one event
row, one matching markdown draft, a webhook configured, and a service
that always answers `replyThreeKeys`. -/
def envBase : Env where
  eventsCsvExists := true
  csvRows := [rowEVT1]
  emailDirExists := true
  mdFiles := [⟨"EVT1_invite_v1.md", "Join us!"⟩]
  txtFiles := []
  llm := fun _ => replyThreeKeys
  slackUrl := some "https://hooks.example/T000/B000"
  now := "2026-10-12 09:00"

/-- Environment whose remote service answers the empty JSON object. -/
def envEmptyReply : Env :=
  { envBase with llm := fun _ => "\x7b\x7d", slackUrl := none }

/-- Environment whose remote service answers something that is not
JSON. -/
def envBadReply : Env := { envBase with llm := fun _ => "oops" }

/-- Environment with both a markdown and a plain-text draft. -/
def envMdTxt : Env :=
  { envBase with txtFiles := [⟨"EVT1_followup.txt", "See you"⟩] }

/-- Environment with `events.csv` absent (and the draft directory also
absent, to show the source-file check comes first). -/
def envNoCsv : Env :=
  { envBase with eventsCsvExists := false, emailDirExists := false }

/-- Environment whose draft directory exists but holds no drafts. -/
def envNoDrafts : Env := { envBase with mdFiles := [], txtFiles := [] }

end EmailQC
namespace EmailQC

theorem colour_light_of_ne (s : String) (h1 : s ≠ "GREEN")
    (h2 : s ≠ "YELLOW") (h3 : s ≠ "RED") :
    colour_light (.str s) = .str s := by
  unfold colour_light
  split <;> simp_all

theorem splitFirst_fst (sep : Char) :
    ∀ cs : List Char, (splitFirst sep cs).1 = cs.takeWhile (fun c => c ≠ sep) := by
  intro cs
  induction cs with
  | nil => rfl
  | cons c cs ih =>
    by_cases h : c = sep <;>
      simp [splitFirst, h, List.takeWhile_cons, ih]

theorem stepDraft_skip (events : List (String × Row)) (llm : Json → String)
    (f : DraftFile) (eff : Effects) (ov : List (String × Json))
    (h : dictGet events (extract_event_id f.name) = none) :
    stepDraft events llm f eff ov =
      ({ eff with prints := eff.prints ++
          [skipLine f.name (extract_event_id f.name)] }, ov, none) := by
  simp only [stepDraft, h]

theorem stepDraft_parseFail (events : List (String × Row)) (llm : Json → String)
    (f : DraftFile) (eff : Effects) (ov : List (String × Json)) (meta : Row)
    (h1 : dictGet events (extract_event_id f.name) = some meta)
    (h2 : call_llm llm meta f.content = none) :
    stepDraft events llm f eff ov = (eff, ov, some .jsonDecodeError) := by
  simp only [stepDraft, h1, h2]

theorem stepDraft_ok (events : List (String × Row)) (llm : Json → String)
    (f : DraftFile) (eff : Effects) (ov : List (String × Json)) (meta : Row)
    (fields : List (String × Json)) (ne nw : Nat)
    (h1 : dictGet events (extract_event_id f.name) = some meta)
    (h2 : call_llm llm meta f.content = some (.obj fields))
    (h3 : hashableJson ((dictGet fields "traffic_light").getD (.str "?")) = true)
    (h4 : pyLenOpt ((dictGet fields "errors").getD (.arr [])) = some ne)
    (h5 : pyLenOpt ((dictGet fields "warnings").getD (.arr [])) = some nw) :
    stepDraft events llm f eff ov =
      ({ reports := eff.reports ++ [(reportName f.name, .obj fields)],
         prints := eff.prints ++
           [summaryLine f.name
             ((dictGet fields "traffic_light").getD (.str "?")) ne nw],
         slackPosts := eff.slackPosts },
       ov ++ [(f.name, (dictGet fields "traffic_light").getD (.str "?"))],
       none) := by
  simp only [stepDraft, h1, h2, h3, h4, h5, if_true]

theorem stepDraft_reports_of_parsed (events : List (String × Row))
    (llm : Json → String) (f : DraftFile) (eff : Effects)
    (ov : List (String × Json)) (meta : Row) (j : Json)
    (h1 : dictGet events (extract_event_id f.name) = some meta)
    (h2 : call_llm llm meta f.content = some j) :
    (stepDraft events llm f eff ov).1.reports =
      eff.reports ++ [(reportName f.name, j)] := by
  simp only [stepDraft, h1, h2]
  (repeat' split) <;> dsimp only

theorem stepDraft_slackPosts (events : List (String × Row)) (llm : Json → String)
    (f : DraftFile) (eff : Effects) (ov : List (String × Json)) :
    (stepDraft events llm f eff ov).1.slackPosts = eff.slackPosts := by
  unfold stepDraft
  (repeat' split) <;> (try dsimp only) <;> (repeat' split) <;> rfl

theorem stepDraft_reports_mono (events : List (String × Row)) (llm : Json → String)
    (f : DraftFile) (eff : Effects) (ov : List (String × Json)) :
    ∃ t, (stepDraft events llm f eff ov).1.reports = eff.reports ++ t := by
  unfold stepDraft
  (repeat' split) <;> (try dsimp only) <;> (repeat' split) <;>
    first | exact ⟨_, rfl⟩ | exact ⟨[], by simp⟩

theorem stepDraft_prints_mono (events : List (String × Row)) (llm : Json → String)
    (f : DraftFile) (eff : Effects) (ov : List (String × Json)) :
    ∃ t, (stepDraft events llm f eff ov).1.prints = eff.prints ++ t := by
  unfold stepDraft
  (repeat' split) <;> (try dsimp only) <;> (repeat' split) <;>
    first | exact ⟨_, rfl⟩ | exact ⟨[], by simp⟩

theorem stepDraft_overall_mono (events : List (String × Row)) (llm : Json → String)
    (f : DraftFile) (eff : Effects) (ov : List (String × Json)) :
    ∃ t, (stepDraft events llm f eff ov).2.1 = ov ++ t := by
  unfold stepDraft
  (repeat' split) <;> (try dsimp only) <;> (repeat' split) <;>
    first | exact ⟨_, rfl⟩ | exact ⟨[], by simp⟩


theorem processFiles_slackPosts (events : List (String × Row))
    (llm : Json → String) :
    ∀ (fs : List DraftFile) (eff : Effects) (ov : List (String × Json)),
    (processFiles events llm fs eff ov).eff.slackPosts = eff.slackPosts := by
  intro fs
  induction fs with
  | nil => intro eff ov; rfl
  | cons f rest ih =>
    intro eff ov
    simp only [processFiles]
    rcases hs : stepDraft events llm f eff ov with ⟨eff2, ov2, err⟩
    have hsl : eff2.slackPosts = eff.slackPosts := by
      have h := stepDraft_slackPosts events llm f eff ov
      rw [hs] at h
      exact h
    cases err with
    | none =>
      dsimp only
      rw [ih eff2 ov2, hsl]
    | some e => exact hsl

theorem processFiles_reports_mono (events : List (String × Row))
    (llm : Json → String) :
    ∀ (fs : List DraftFile) (eff : Effects) (ov : List (String × Json)),
    ∃ t, (processFiles events llm fs eff ov).eff.reports = eff.reports ++ t := by
  intro fs
  induction fs with
  | nil => intro eff ov; exact ⟨[], by simp [processFiles]⟩
  | cons f rest ih =>
    intro eff ov
    simp only [processFiles]
    rcases hs : stepDraft events llm f eff ov with ⟨eff2, ov2, err⟩
    have hr : ∃ t, eff2.reports = eff.reports ++ t := by
      have h := stepDraft_reports_mono events llm f eff ov
      rw [hs] at h
      exact h
    cases err with
    | none =>
      dsimp only
      obtain ⟨t1, ht1⟩ := hr
      obtain ⟨t2, ht2⟩ := ih eff2 ov2
      exact ⟨t1 ++ t2, by rw [ht2, ht1, List.append_assoc]⟩
    | some e => exact hr

theorem processFiles_prints_mono (events : List (String × Row))
    (llm : Json → String) :
    ∀ (fs : List DraftFile) (eff : Effects) (ov : List (String × Json)),
    ∃ t, (processFiles events llm fs eff ov).eff.prints = eff.prints ++ t := by
  intro fs
  induction fs with
  | nil => intro eff ov; exact ⟨[], by simp [processFiles]⟩
  | cons f rest ih =>
    intro eff ov
    simp only [processFiles]
    rcases hs : stepDraft events llm f eff ov with ⟨eff2, ov2, err⟩
    have hr : ∃ t, eff2.prints = eff.prints ++ t := by
      have h := stepDraft_prints_mono events llm f eff ov
      rw [hs] at h
      exact h
    cases err with
    | none =>
      dsimp only
      obtain ⟨t1, ht1⟩ := hr
      obtain ⟨t2, ht2⟩ := ih eff2 ov2
      exact ⟨t1 ++ t2, by rw [ht2, ht1, List.append_assoc]⟩
    | some e => exact hr

theorem processFiles_overall_mono (events : List (String × Row))
    (llm : Json → String) :
    ∀ (fs : List DraftFile) (eff : Effects) (ov : List (String × Json)),
    ∃ t, (processFiles events llm fs eff ov).overall = ov ++ t := by
  intro fs
  induction fs with
  | nil => intro eff ov; exact ⟨[], by simp [processFiles]⟩
  | cons f rest ih =>
    intro eff ov
    simp only [processFiles]
    rcases hs : stepDraft events llm f eff ov with ⟨eff2, ov2, err⟩
    have hr : ∃ t, ov2 = ov ++ t := by
      have h := stepDraft_overall_mono events llm f eff ov
      rw [hs] at h
      exact h
    cases err with
    | none =>
      dsimp only
      obtain ⟨t1, ht1⟩ := hr
      obtain ⟨t2, ht2⟩ := ih eff2 ov2
      exact ⟨t1 ++ t2, by rw [ht2, ht1, List.append_assoc]⟩
    | some e => exact hr

theorem processFiles_append (events : List (String × Row))
    (llm : Json → String) :
    ∀ (a b : List DraftFile) (eff : Effects) (ov : List (String × Json)),
    (processFiles events llm a eff ov).err = none →
    processFiles events llm (a ++ b) eff ov =
      processFiles events llm b (processFiles events llm a eff ov).eff
        (processFiles events llm a eff ov).overall := by
  intro a
  induction a with
  | nil => intro b eff ov _; rfl
  | cons f rest ih =>
    intro b eff ov h
    simp only [List.cons_append, processFiles] at h ⊢
    rcases hs : stepDraft events llm f eff ov with ⟨eff2, ov2, err⟩
    rw [hs] at h
    cases err with
    | none =>
      dsimp only at h
      exact ih b eff2 ov2 h
    | some e =>
      dsimp only at h
      exact Option.noConfusion h


theorem takeWhile_ne_eq_self (l : List Char) (h : l.contains '_' = false) :
    l.takeWhile (fun c => c ≠ '_') = l := by
  refine List.takeWhile_eq_self_iff.mpr ?_
  simp at h
  intro x hx
  simp only [decide_eq_true_eq]
  exact fun hxe => h (hxe ▸ hx)

/-- C4: for every draft filename, the derived identifier is the filename
without its extension truncated at the first underscore (the whole stem
when no underscore is present); "EVT23_invite_v1.md" yields "EVT23" and
"noUnderscore.txt" yields "noUnderscore". -/
theorem C4_identifier_derivation :
    (∀ filename : String, extract_event_id filename = specDerivedId filename) ∧
    extract_event_id "EVT23_invite_v1.md" = "EVT23" ∧
    extract_event_id "noUnderscore.txt" = "noUnderscore" := by
  refine ⟨?_, rfl, rfl⟩
  intro filename
  simp only [extract_event_id, specDerivedId, splitFirst_fst]
  cases hc : (pyStem filename).toList.contains '_' with
  | true => simp [hc]
  | false =>
    simp only [hc, if_false, Bool.false_eq_true]
    rw [takeWhile_ne_eq_self _ hc]
    rfl

/-- C3: for every event record and draft text, the user payload of the
request embeds the event record verbatim, the draft text verbatim, and
the three fixed style thresholds 55, 120 and 1800; in particular for
the record with id "EVT1", title "Launch" and draft text "Join us!". -/
theorem C3_payload_verbatim :
    (∀ (meta : Row) (text : String),
      jsonGet (user_prompt meta text) "event" = some (rowToJson meta) ∧
      jsonGet (user_prompt meta text) "email" = some (.str text) ∧
      jsonGet (user_prompt meta text) "style_rules" =
        some (.obj [("subject_max_chars", .num 55),
                    ("preview_max_chars", .num 120),
                    ("body_max_chars", .num 1800)])) ∧
    user_prompt [("id", "EVT1"), ("title", "Launch")] "Join us!" =
      .obj [("event", .obj [("id", .str "EVT1"), ("title", .str "Launch")]),
            ("email", .str "Join us!"),
            ("style_rules", .obj [("subject_max_chars", .num 55),
                                  ("preview_max_chars", .num 120),
                                  ("body_max_chars", .num 1800)])] := by
  refine ⟨?_, rfl⟩
  intro meta text
  refine ⟨?_, ?_, ?_⟩ <;> simp [user_prompt, jsonGet, dictGet, STYLE_RULES]

/-- C2: a draft whose derived identifier is absent from the event
mapping is skipped with a printed notice: the step appends only the
notice (no report, no remote call — the result does not depend on the
service oracle), does not crash, and processing continues with the
remaining drafts. -/
theorem C2_unmatched_skip :
    ∀ (events : List (String × Row)) (llm : Json → String) (f : DraftFile)
      (rest : List DraftFile) (eff : Effects) (ov : List (String × Json)),
    dictGet events (extract_event_id f.name) = none →
    processFiles events llm (f :: rest) eff ov =
      processFiles events llm rest
        { eff with prints := eff.prints ++
            [skipLine f.name (extract_event_id f.name)] } ov := by
  intro events llm f rest eff ov h
  simp only [processFiles]
  rw [stepDraft_skip events llm f eff ov h]

/-- Witness for C2 at a concrete skipped draft. -/
theorem C2_witness :
    dictGet [("EVT1", rowEVT1)] (extract_event_id "BAD_offer.md") = none ∧
    processFiles [("EVT1", rowEVT1)] (fun _ => replyThreeKeys)
        [⟨"BAD_offer.md", "z"⟩] emptyEffects [] =
      processFiles [("EVT1", rowEVT1)] (fun _ => replyThreeKeys) []
        { emptyEffects with prints := emptyEffects.prints ++
            [skipLine "BAD_offer.md" (extract_event_id "BAD_offer.md")] } [] :=
  ⟨rfl, C2_unmatched_skip _ _ _ _ _ _ rfl⟩

/-- C7: a missing events.csv aborts the run with the missing-source-file
error immediately: no effect is produced, regardless of the draft
directory state. -/
theorem C7_missing_csv_aborts :
    ∀ env : Env, env.eventsCsvExists = false →
    load_events env = .error .missingEventsCsv ∧
    runMain env = (emptyEffects, some .missingEventsCsv) := by
  intro env h
  have hl : load_events env = .error .missingEventsCsv := by
    simp [load_events, h]
  exact ⟨hl, by simp [runMain, hl]⟩

/-- Witness for C7: the source file is absent and the draft directory is
also absent, yet the error is the missing-source-file one. -/
theorem C7_witness :
    envNoCsv.eventsCsvExists = false ∧ envNoCsv.emailDirExists = false ∧
    runMain envNoCsv = (emptyEffects, some .missingEventsCsv) :=
  ⟨rfl, rfl, (C7_missing_csv_aborts envNoCsv rfl).2⟩


/-- C1 (counterexample): with a matching event record and a remote reply
"\x7b\x7d" that parses as JSON, the run completes and writes the report
file, but its content does not have the three keys errors, warnings,
traffic_light — the claim as stated is false. -/
theorem C1_counterexample :
    jsonParse "\x7b\x7d" = some (Json.obj []) ∧
    (runMain envEmptyReply).2 = none ∧
    (runMain envEmptyReply).1.reports =
      [("EVT1_invite_v1_report.json", Json.obj [])] ∧
    jsonKeys (Json.obj []) ≠ ["errors", "warnings", "traffic_light"] :=
  ⟨rfl, rfl, rfl, by decide⟩

/-- C1 (amended): for every draft whose derived identifier has a
matching event record and whose remote reply parses as a JSON object
with exactly the three keys errors, warnings and traffic_light — in any
order — the loop writes the report file named `<draft-stem>_report.json`
whose content is that parsed reply, hence with exactly the three keys. -/
theorem C1_report_three_keys :
    ∀ (events : List (String × Row)) (llm : Json → String) (f : DraftFile)
      (rest : List DraftFile) (eff : Effects) (ov : List (String × Json))
      (meta : Row) (j : Json),
    dictGet events (extract_event_id f.name) = some meta →
    call_llm llm meta f.content = some j →
    List.Perm (jsonKeys j) ["errors", "warnings", "traffic_light"] →
    ∃ t, (processFiles events llm (f :: rest) eff ov).eff.reports =
        eff.reports ++ (reportName f.name, j) :: t ∧
      List.Perm (jsonKeys j) ["errors", "warnings", "traffic_light"] := by
  intro events llm f rest eff ov meta j h1 h2 h3
  simp only [processFiles]
  rcases hs : stepDraft events llm f eff ov with ⟨eff2, ov2, err⟩
  have hr : eff2.reports = eff.reports ++ [(reportName f.name, j)] := by
    have h := stepDraft_reports_of_parsed events llm f eff ov meta j h1 h2
    rw [hs] at h
    exact h
  cases err with
  | none =>
    dsimp only
    obtain ⟨t2, ht2⟩ := processFiles_reports_mono events llm rest eff2 ov2
    refine ⟨t2, ?_, h3⟩
    rw [ht2, hr, List.append_assoc]
    rfl
  | some e =>
    refine ⟨[], ?_, h3⟩
    dsimp only
    rw [hr]

/-- Witness for the amended C1 at a concrete reply carrying the three
keys in a non-canonical order. -/
theorem C1_witness :
    dictGet [("EVT1", rowEVT1)] (extract_event_id "EVT1_invite_v1.md") =
      some rowEVT1 ∧
    call_llm (fun _ => replyShuffled) rowEVT1 "Join us!" = some objShuffled ∧
    jsonKeys objShuffled = ["traffic_light", "errors", "warnings"] ∧
    List.Perm (jsonKeys objShuffled) ["errors", "warnings", "traffic_light"] ∧
    ∃ t, (processFiles [("EVT1", rowEVT1)] (fun _ => replyShuffled)
        [⟨"EVT1_invite_v1.md", "Join us!"⟩] emptyEffects []).eff.reports =
      emptyEffects.reports ++
        (reportName "EVT1_invite_v1.md", objShuffled) :: t ∧
      List.Perm (jsonKeys objShuffled) ["errors", "warnings", "traffic_light"] :=
  ⟨rfl, rfl, rfl, by decide,
    C1_report_three_keys _ _ _ _ _ _ rowEVT1 objShuffled rfl rfl (by decide)⟩

/-- C5: a traffic-light string outside GREEN/YELLOW/RED returned by the
service appears unchanged in the written report (the content is the
parsed reply, whose traffic_light field is that string) and unchanged
in the printed one-line summary. -/
theorem C5_traffic_light_passthrough :
    ∀ (events : List (String × Row)) (llm : Json → String) (f : DraftFile)
      (rest : List DraftFile) (eff : Effects) (ov : List (String × Json))
      (meta : Row) (j : Json) (s : String) (es ws : List Json),
    dictGet events (extract_event_id f.name) = some meta →
    call_llm llm meta f.content = some j →
    jsonGet j "traffic_light" = some (.str s) →
    s ≠ "GREEN" → s ≠ "YELLOW" → s ≠ "RED" →
    jsonGet j "errors" = some (.arr es) →
    jsonGet j "warnings" = some (.arr ws) →
    processFiles events llm (f :: rest) eff ov =
      processFiles events llm rest
        { eff with
          reports := eff.reports ++ [(reportName f.name, j)],
          prints := eff.prints ++
            [summaryLine f.name (.str s) es.length ws.length] }
        (ov ++ [(f.name, .str s)]) ∧
    summaryLine f.name (.str s) es.length ws.length =
      f.name ++ ": " ++ s ++ " – " ++ toString es.length ++ " errors, " ++
        toString ws.length ++ " warnings" := by
  intro events llm f rest eff ov meta j s es ws h1 h2 h3 hg hy hr he hw
  have hcl : colour_light (.str s) = .str s := colour_light_of_ne s hg hy hr
  obtain ⟨fields, rfl⟩ : ∃ fields, j = Json.obj fields := by
    cases j <;> first | exact ⟨_, rfl⟩ | simp [jsonGet] at h3
  replace h3 : dictGet fields "traffic_light" = some (.str s) := h3
  replace he : dictGet fields "errors" = some (.arr es) := he
  replace hw : dictGet fields "warnings" = some (.arr ws) := hw
  constructor
  · simp only [processFiles]
    rw [stepDraft_ok events llm f eff ov meta fields es.length ws.length h1 h2
      (by rw [h3]; rfl) (by rw [he]; rfl) (by rw [hw]; rfl)]
    rw [h3]
    rfl
  · simp only [summaryLine, hcl, formatPy]

/-- Witness for C5 at the concrete traffic light "PURPLE". -/
theorem C5_witness :
    call_llm (fun _ => replyPurple) rowEVT1 "Join us!" = some objPurple ∧
    jsonGet objPurple "traffic_light" = some (.str "PURPLE") ∧
    (processFiles [("EVT1", rowEVT1)] (fun _ => replyPurple)
        [⟨"EVT1_invite_v1.md", "Join us!"⟩] emptyEffects [] =
      processFiles [("EVT1", rowEVT1)] (fun _ => replyPurple) []
        { emptyEffects with
          reports := emptyEffects.reports ++
            [(reportName "EVT1_invite_v1.md", objPurple)],
          prints := emptyEffects.prints ++
            [summaryLine "EVT1_invite_v1.md" (.str "PURPLE") 0 1] }
        ([] ++ [("EVT1_invite_v1.md", .str "PURPLE")]) ∧
      summaryLine "EVT1_invite_v1.md" (.str "PURPLE") 0 1 =
        "EVT1_invite_v1.md" ++ ": " ++ "PURPLE" ++ " – " ++ toString 0 ++
          " errors, " ++ toString 1 ++ " warnings") :=
  ⟨rfl, rfl,
    C5_traffic_light_passthrough _ _ _ _ _ _ rowEVT1 objPurple "PURPLE"
      [] [.str "w1"] rfl rfl rfl (by decide) (by decide) (by decide) rfl rfl⟩

/-- C6: a remote reply that is not valid JSON stops the loop at that
draft with the effects accumulated so far (earlier reports unchanged, no
report for this or later drafts), and a run that ends in any uncaught
exception sends no webhook post. -/
theorem C6_parse_error_stops :
    (∀ (events : List (String × Row)) (llm : Json → String) (f : DraftFile)
      (rest : List DraftFile) (eff : Effects) (ov : List (String × Json))
      (meta : Row),
      dictGet events (extract_event_id f.name) = some meta →
      call_llm llm meta f.content = none →
      processFiles events llm (f :: rest) eff ov =
        ⟨eff, ov, some .jsonDecodeError⟩) ∧
    (∀ (env : Env) (e : Err), (runMain env).2 = some e →
      (runMain env).1.slackPosts = []) := by
  constructor
  · intro events llm f rest eff ov meta h1 h2
    simp only [processFiles]
    rw [stepDraft_parseFail events llm f eff ov meta h1 h2]
  · intro env e h
    unfold runMain at h ⊢
    cases hl : load_events env with
    | error e1 => rfl
    | ok events =>
      rw [hl] at h
      dsimp only at h ⊢
      cases hg : gather_emails env with
      | error e2 => rfl
      | ok files =>
        rw [hg] at h
        dsimp only at h ⊢
        cases ho : (processFiles events env.llm files emptyEffects []).err with
        | none =>
          rw [ho] at h
          dsimp only at h
          split at h <;> simp at h
        | some e3 =>
          dsimp only
          rw [processFiles_slackPosts]
          rfl

/-- Witness for C6 at a non-JSON reply. -/
theorem C6_witness :
    call_llm (fun _ => "oops") rowEVT1 "Join us!" = none ∧
    processFiles [("EVT1", rowEVT1)] (fun _ => "oops")
        [⟨"EVT1_invite_v1.md", "Join us!"⟩] emptyEffects [] =
      ⟨emptyEffects, [], some .jsonDecodeError⟩ ∧
    (runMain envBadReply).2 = some .jsonDecodeError ∧
    (runMain envBadReply).1.slackPosts = [] :=
  ⟨rfl,
    C6_parse_error_stops.1 _ _ _ _ _ _ rowEVT1 rfl rfl,
    rfl,
    C6_parse_error_stops.2 envBadReply .jsonDecodeError rfl⟩


/-- C8: with an existing but draft-less directory the run completes
without error, writes no report, prints nothing, and when a webhook is
configured sends exactly one message consisting of the timestamped
header with an empty digest body. -/
theorem C8_empty_dir_digest :
    ∀ (env : Env) (u : String),
    env.eventsCsvExists = true → env.emailDirExists = true →
    env.mdFiles = [] → env.txtFiles = [] → env.slackUrl = some u →
    runMain env =
      ({ reports := [], prints := [],
         slackPosts := [.obj [("text",
           .str ("QC Summary (" ++ env.now ++ "):
"))]] }, none) := by
  intro env u h1 h2 h3 h4 h5
  simp [runMain, load_events, gather_emails, h1, h2, h3, h4, h5, send_slack,
    processFiles, emptyEffects, String.intercalate]

/-- Witness for C8 at a concrete empty draft directory. -/
theorem C8_witness :
    runMain envNoDrafts =
      ({ reports := [], prints := [],
         slackPosts := [.obj [("text",
           .str ("QC Summary (" ++ envNoDrafts.now ++ "):
"))]] }, none) :=
  C8_empty_dir_digest envNoDrafts "https://hooks.example/T000/B000"
    rfl rfl rfl rfl rfl

/-- C9: the collector returns the markdown matches followed by the
plain-text matches, and the loop over that concatenation first runs all
markdown drafts and only then the plain-text drafts, starting from the
effects the markdown phase accumulated; prints and digest entries are
append-only, so every markdown draft is printed and listed before any
plain-text draft. -/
theorem C9_md_before_txt :
    ∀ (env : Env) (events : List (String × Row)),
    env.emailDirExists = true →
    gather_emails env = .ok (env.mdFiles ++ env.txtFiles) ∧
    ((processFiles events env.llm env.mdFiles emptyEffects []).err = none →
      processFiles events env.llm (env.mdFiles ++ env.txtFiles)
          emptyEffects [] =
        processFiles events env.llm env.txtFiles
          (processFiles events env.llm env.mdFiles emptyEffects []).eff
          (processFiles events env.llm env.mdFiles emptyEffects []).overall) ∧
    (∀ (fs : List DraftFile) (eff : Effects) (ov : List (String × Json)),
      ∃ t, (processFiles events env.llm fs eff ov).eff.prints =
        eff.prints ++ t) ∧
    (∀ (fs : List DraftFile) (eff : Effects) (ov : List (String × Json)),
      ∃ t, (processFiles events env.llm fs eff ov).overall = ov ++ t) := by
  intro env events h
  exact ⟨by simp [gather_emails, h],
    processFiles_append events env.llm env.mdFiles env.txtFiles emptyEffects [],
    processFiles_prints_mono events env.llm,
    processFiles_overall_mono events env.llm⟩

/-- Witness for C9 with one markdown and one plain-text draft. -/
theorem C9_witness :
    gather_emails envMdTxt = .ok (envMdTxt.mdFiles ++ envMdTxt.txtFiles) ∧
    processFiles [("EVT1", rowEVT1)] envMdTxt.llm
        (envMdTxt.mdFiles ++ envMdTxt.txtFiles) emptyEffects [] =
      processFiles [("EVT1", rowEVT1)] envMdTxt.llm envMdTxt.txtFiles
        (processFiles [("EVT1", rowEVT1)] envMdTxt.llm envMdTxt.mdFiles
          emptyEffects []).eff
        (processFiles [("EVT1", rowEVT1)] envMdTxt.llm envMdTxt.mdFiles
          emptyEffects []).overall :=
  ⟨(C9_md_before_txt envMdTxt [("EVT1", rowEVT1)] rfl).1,
   (C9_md_before_txt envMdTxt [("EVT1", rowEVT1)] rfl).2.1 rfl⟩

/-- C10: a parsed reply that is a JSON object missing the traffic_light
key (with errors and warnings each absent or lists) does not crash that
draft: the report file is the reply as received, the summary line and
the digest entry show "?", and a missing errors or warnings key counts
as 0.  The object restriction is the claim's own: a non-object reply
instead raises `AttributeError` at line 120's `report.get`. -/
theorem C10_missing_keys_defaults :
    ∀ (events : List (String × Row)) (llm : Json → String) (f : DraftFile)
      (rest : List DraftFile) (eff : Effects) (ov : List (String × Json))
      (meta : Row) (fields : List (String × Json)),
    dictGet events (extract_event_id f.name) = some meta →
    call_llm llm meta f.content = some (.obj fields) →
    dictGet fields "traffic_light" = none →
    (dictGet fields "errors" = none ∨
      ∃ es, dictGet fields "errors" = some (.arr es)) →
    (dictGet fields "warnings" = none ∨
      ∃ ws, dictGet fields "warnings" = some (.arr ws)) →
    ∃ ne nw,
      processFiles events llm (f :: rest) eff ov =
        processFiles events llm rest
          { eff with
            reports := eff.reports ++ [(reportName f.name, .obj fields)],
            prints := eff.prints ++ [summaryLine f.name (.str "?") ne nw] }
          (ov ++ [(f.name, .str "?")]) ∧
      (dictGet fields "errors" = none → ne = 0) ∧
      (dictGet fields "warnings" = none → nw = 0) ∧
      formatPy (colour_light (.str "?")) = "?" ∧
      digestLine (f.name, .str "?") = "*" ++ f.name ++ "* → ?" := by
  intro events llm f rest eff ov meta fields h1 h2 h3 h4 h5
  have hq : formatPy (colour_light (.str "?")) = "?" := rfl
  have hd : digestLine (f.name, .str "?") = "*" ++ f.name ++ "* → ?" := by
    simp only [digestLine, formatPy]
    rw [String.append_assoc]
    rfl
  have main : ∀ ne nw,
      pyLenOpt ((dictGet fields "errors").getD (.arr [])) = some ne →
      pyLenOpt ((dictGet fields "warnings").getD (.arr [])) = some nw →
      processFiles events llm (f :: rest) eff ov =
        processFiles events llm rest
          { eff with
            reports := eff.reports ++ [(reportName f.name, .obj fields)],
            prints := eff.prints ++ [summaryLine f.name (.str "?") ne nw] }
          (ov ++ [(f.name, .str "?")]) := by
    intro ne nw hl1 hl2
    simp only [processFiles]
    rw [stepDraft_ok events llm f eff ov meta fields ne nw h1 h2
      (by rw [h3]; rfl) hl1 hl2]
    rw [h3]
    rfl
  rcases h4 with he | ⟨es, he⟩
  · rcases h5 with hw | ⟨ws, hw⟩
    · exact ⟨0, 0, main 0 0 (by rw [he]; rfl) (by rw [hw]; rfl),
        fun _ => rfl, fun _ => rfl, hq, hd⟩
    · exact ⟨0, ws.length, main _ _ (by rw [he]; rfl) (by rw [hw]; rfl),
        fun _ => rfl,
        fun hc => by rw [hw] at hc; exact Option.noConfusion hc, hq, hd⟩
  · rcases h5 with hw | ⟨ws, hw⟩
    · exact ⟨es.length, 0, main _ _ (by rw [he]; rfl) (by rw [hw]; rfl),
        fun hc => by rw [he] at hc; exact Option.noConfusion hc,
        fun _ => rfl, hq, hd⟩
    · exact ⟨es.length, ws.length, main _ _ (by rw [he]; rfl) (by rw [hw]; rfl),
        fun hc => by rw [he] at hc; exact Option.noConfusion hc,
        fun hc => by rw [hw] at hc; exact Option.noConfusion hc, hq, hd⟩

/-- Witness for C10 at a reply object with none of the three keys. -/
theorem C10_witness :
    call_llm (fun _ => replyNoKeys) rowEVT1 "Join us!" = some objNoKeys ∧
    jsonGet objNoKeys "traffic_light" = none ∧
    ∃ ne nw,
      processFiles [("EVT1", rowEVT1)] (fun _ => replyNoKeys)
          [⟨"EVT1_invite_v1.md", "Join us!"⟩] emptyEffects [] =
        processFiles [("EVT1", rowEVT1)] (fun _ => replyNoKeys) []
          { emptyEffects with
            reports := emptyEffects.reports ++
              [(reportName "EVT1_invite_v1.md", objNoKeys)],
            prints := emptyEffects.prints ++
              [summaryLine "EVT1_invite_v1.md" (.str "?") ne nw] }
          ([] ++ [("EVT1_invite_v1.md", .str "?")]) ∧
        (jsonGet objNoKeys "errors" = none → ne = 0) ∧
        (jsonGet objNoKeys "warnings" = none → nw = 0) ∧
        formatPy (colour_light (.str "?")) = "?" ∧
        digestLine ("EVT1_invite_v1.md", .str "?") =
          "*" ++ "EVT1_invite_v1.md" ++ "* → ?" :=
  ⟨rfl, rfl,
    C10_missing_keys_defaults _ _ _ _ _ _ rowEVT1 [("note", Json.str "n")]
      rfl rfl rfl (Or.inl rfl) (Or.inl rfl)⟩

end EmailQC
